import Mathlib

/-!
Shallow embedding of `scripts/postinstall-codex-global.js`, the postinstall
bootstrap routine of the repository.

The script runs, in order: an environment probe (a `which`/`where` lookup whose
result is only logged), credential provisioning (`ensureAuthFromEnvIfMissing`),
configuration provisioning (`ensureConfigTomlFromRepo`), local entrypoint
resolution (`findLocalCodexEntrypoint`), and verification (`verifyLocalCodex`).
Each step either continues or terminates the process with an exit code.

The filesystem is modelled as a list of file entries (path, content, mode) plus
a list of created directories.  I/O failures that the script catches (mkdir,
write, read throwing) are modelled by an injected set of failing paths in the
environment.  Child processes are an oracle from command and argument list to a
spawn result.
-/

/-- A file on the modelled filesystem: absolute path, byte content (as a
string), and permission mode bits. -/
structure FileEntry where
  path : String
  content : String
  mode : Nat
deriving Repr, DecidableEq

/-- Filesystem state: files plus the set of directories created so far. -/
structure FS where
  files : List FileEntry
  dirs : List String
deriving Repr, DecidableEq

/-- `fs.existsSync p`: Node's `fs.existsSync`, true when a file or directory
lives at `p`. -/
def FS.existsSync (fs : FS) (p : String) : Bool :=
  fs.files.any (fun f => f.path = p) || fs.dirs.contains p

/-- `fs.readFile p`: Node's `fs.readFileSync`, `none` when the file is absent
(the call would throw). -/
def FS.readFile (fs : FS) (p : String) : Option String :=
  (fs.files.find? (fun f => f.path = p)).map (fun f => f.content)

/-- The permission mode recorded for a file, `none` when the file is absent. -/
def FS.fileMode (fs : FS) (p : String) : Option Nat :=
  (fs.files.find? (fun f => f.path = p)).map (fun f => f.mode)

/-- Replace the entry at path `p` with content `c` (keeping the entry's mode),
or append a fresh entry with mode `m` when `p` is absent. -/
def setFile : List FileEntry → String → String → Nat → List FileEntry
  | [], p, c, m => [⟨p, c, m⟩]
  | a :: t, p, c, m => if a.path = p then ⟨p, c, a.mode⟩ :: t else a :: setFile t p c m

/-- `fs.writeFile p c m`: Node's `fs.writeFileSync(p, c, \x7bmode: m\x7d)`.
The `mode` option only applies when the file is being created; an existing
file keeps its mode. -/
def FS.writeFile (fs : FS) (p c : String) (m : Nat) : FS :=
  ⟨setFile fs.files p c m, fs.dirs⟩

/-- `fs.mkdir p`: Node's `fs.mkdirSync(p, \x7brecursive: true\x7d)` (modelled at
the granularity of the one directory the script creates). -/
def FS.mkdir (fs : FS) (p : String) : FS :=
  if fs.dirs.contains p then fs else ⟨fs.files, p :: fs.dirs⟩

/-- `fs.chmod p m`: Node's `fs.chmodSync(p, m)`. -/
def FS.chmod (fs : FS) (p : String) (m : Nat) : FS :=
  ⟨fs.files.map (fun f => if f.path = p then ⟨f.path, f.content, m⟩ else f), fs.dirs⟩

/-- Result of `spawnSync` as surfaced by `runCapture`: the exit status is
`none` when the child was killed by a signal or could not be spawned. -/
structure SpawnResult where
  status : Option Int
  hasError : Bool
deriving Repr, DecidableEq

/-- `runCapture`'s `ok` field: `res.status === 0`. -/
def SpawnResult.ok (r : SpawnResult) : Bool :=
  r.status = some 0

/-- The process environment and ambient world the script reads:
`os.homedir()`, `process.env.HOME`, `process.env.USERPROFILE`,
`process.env.CODEX_AUTH_JSON`, `process.cwd()`, `process.platform`,
`process.execPath`, the result of the `which`/`where` probe, the spawn oracle
for the verification subprocess, and the set of paths at which a filesystem
call throws (injected I/O failures). -/
structure Env where
  osHomedir : Option String
  envHOME : Option String
  envUSERPROFILE : Option String
  codexAuthJson : Option String
  cwd : String
  platform : String
  execPath : Option String
  whichResult : SpawnResult
  spawn : String → List String → SpawnResult
  failPaths : List String

/-- JavaScript truthiness of an optional string: `undefined` and the empty
string are falsy. -/
def truthy : Option String → Option String
  | some s => if s.isEmpty then none else some s
  | none => none

/-- `os.homedir() || process.env.HOME || process.env.USERPROFILE`. -/
def resolveHome (e : Env) : Option String :=
  match truthy e.osHomedir with
  | some h => some h
  | none =>
    match truthy e.envHOME with
    | some h => some h
    | none => truthy e.envUSERPROFILE

/-- `path.join` restricted to the two-argument joins the script performs
(plain names, the POSIX separator). -/
def pathJoin (a b : String) : String := a ++ "/" ++ b

/-- `path.join(home, '.codex')`. -/
def codexDirOf (home : String) : String := pathJoin home ".codex"

/-- `path.join(home, '.codex', 'auth.json')`. -/
def authPathOf (home : String) : String := pathJoin (codexDirOf home) "auth.json"

/-- `path.join(home, '.codex', 'config.toml')`, the destination of the
configuration copy. -/
def destConfigPathOf (home : String) : String := pathJoin (codexDirOf home) "config.toml"

/-- `path.join(process.cwd(), '.codex', 'config.toml')`, the repository's
configuration file. -/
def repoConfigPathOf (e : Env) : String := pathJoin (pathJoin e.cwd ".codex") "config.toml"

/-- `path.join(projectRoot, 'node_modules', '@openai', 'codex', 'bin', 'codex.js')`. -/
def codexJsPathOf (e : Env) : String :=
  pathJoin (pathJoin (pathJoin (pathJoin (pathJoin e.cwd "node_modules") "@openai") "codex") "bin") "codex.js"

/-- `path.join(projectRoot, 'node_modules', '.bin')`. -/
def binDirOf (e : Env) : String := pathJoin (pathJoin e.cwd "node_modules") ".bin"

/-- JavaScript `String.prototype.trim()`: drop whitespace from both ends
(structural model over the character list). -/
def jsTrim (s : String) : String :=
  ⟨((s.data.dropWhile Char.isWhitespace).reverse.dropWhile Char.isWhitespace).reverse⟩

/-- Outcome of one step of the routine: continue with the updated filesystem,
or `process.exit(code)` with the filesystem as it stood at the exit. -/
inductive StepOut where
  | next : FS → StepOut
  | exit : Int → FS → StepOut
deriving Repr, DecidableEq

/-- `ensureAuthFromEnvIfMissing`: if no home directory resolves, warn and
return; if `~/.codex/auth.json` exists, return; if `CODEX_AUTH_JSON` is unset
or trims to empty, log and return; otherwise create `~/.codex`, write the
secret with mode `0600` and chmod it (chmod failures are swallowed).  A mkdir
or write failure is caught and terminates with exit code 1. -/
def ensureAuthFromEnvIfMissing (e : Env) (fs : FS) : StepOut :=
  match resolveHome e with
  | none => .next fs
  | some home =>
    let codexDir := codexDirOf home
    let authPath := authPathOf home
    if fs.existsSync authPath then .next fs
    else
      match e.codexAuthJson with
      | none => .next fs
      | some secret =>
        if (jsTrim secret).isEmpty then .next fs
        else
          if e.failPaths.contains codexDir then .exit 1 fs
          else
            let fs1 := fs.mkdir codexDir
            if e.failPaths.contains authPath then .exit 1 fs1
            else
              let fs2 := fs1.writeFile authPath secret 0o600
              .next (fs2.chmod authPath 0o600)

/-- `ensureConfigTomlFromRepo`: if the repository's `.codex/config.toml` is
absent, exit 2 (fail-fast); if no home directory resolves, exit 1; otherwise
create `~/.codex`, read the repository file and overwrite
`~/.codex/config.toml` with its bytes at mode `0600` (chmod failures
swallowed).  A mkdir, read or write failure is caught and terminates with
exit code 1. -/
def ensureConfigTomlFromRepo (e : Env) (fs : FS) : StepOut :=
  let repoConfigPath := repoConfigPathOf e
  if !fs.existsSync repoConfigPath then .exit 2 fs
  else
    match resolveHome e with
    | none => .exit 1 fs
    | some home =>
      let codexDir := codexDirOf home
      let destConfigPath := destConfigPathOf home
      if e.failPaths.contains codexDir then .exit 1 fs
      else
        let fs1 := fs.mkdir codexDir
        match (if e.failPaths.contains repoConfigPath then none else fs1.readFile repoConfigPath) with
        | none => .exit 1 fs1
        | some content =>
          if e.failPaths.contains destConfigPath then .exit 1 fs1
          else
            let fs2 := fs1.writeFile destConfigPath content 0o600
            .next (fs2.chmod destConfigPath 0o600)

/-- A resolved CLI entrypoint: a command and its fixed leading arguments. -/
structure Entry where
  command : String
  args : List String
deriving Repr, DecidableEq

/-- The platform-dependent candidate names tried under `node_modules/.bin`. -/
def binCandidates (platform : String) : List String :=
  if platform = "win32" then ["codex.cmd", "codex.exe", "codex"] else ["codex"]

/-- `process.execPath || 'node'`. -/
def nodeBinOf (e : Env) : String :=
  match truthy e.execPath with
  | some p => p
  | none => "node"

/-- `findLocalCodexEntrypoint`: prefer the script entrypoint
`node_modules/@openai/codex/bin/codex.js` run through the current runtime
(`process.execPath || 'node'`); otherwise the first existing
platform-appropriate binary under `node_modules/.bin`; otherwise `none`. -/
def findLocalCodexEntrypoint (e : Env) (fs : FS) : Option Entry :=
  let codexJs := codexJsPathOf e
  if fs.existsSync codexJs then
    some ⟨nodeBinOf e, [codexJs]⟩
  else
    let binDir := binDirOf e
    ((binCandidates e.platform).find? (fun name => fs.existsSync (pathJoin binDir name))).map
      (fun name => ⟨pathJoin binDir name, []⟩)

/-- `verifyLocalCodex`: spawn the entrypoint with `--version`; on a non-zero
status exit with that status, on an unavailable status (signal or spawn
error) exit 1; on status 0 continue. -/
def verifyLocalCodex (e : Env) (entry : Entry) (fs : FS) : StepOut :=
  let res := e.spawn entry.command (entry.args ++ ["--version"])
  if res.ok then .next fs
  else
    match res.status with
    | none => .exit 1 fs
    | some s => .exit s fs

/-- Final outcome of a run: `process.exit(code)`, or completion (the process
then exits 0). -/
inductive Outcome where
  | exited : Int → Outcome
  | completed : Outcome
deriving Repr, DecidableEq

/-- `main`: probe (the `which`/`where` result is only logged), then credential
provisioning, configuration provisioning, entrypoint resolution (exit 1 when
nothing resolves), then verification. -/
def mainRun (e : Env) (fs : FS) : Outcome × FS :=
  let _whichNode := e.whichResult
  match ensureAuthFromEnvIfMissing e fs with
  | .exit c fs' => (.exited c, fs')
  | .next fs1 =>
    match ensureConfigTomlFromRepo e fs1 with
    | .exit c fs' => (.exited c, fs')
    | .next fs2 =>
      match findLocalCodexEntrypoint e fs2 with
      | none => (.exited 1, fs2)
      | some entry =>
        match verifyLocalCodex e entry fs2 with
        | .exit c fs' => (.exited c, fs')
        | .next fs3 => (.completed, fs3)

/-! Concrete environments and filesystem states used to exercise the model. -/

/-- A spawn oracle whose every child process exits 0. -/
def spawnOk : String → List String → SpawnResult := fun _ _ => ⟨some 0, false⟩

/-- A spawn oracle whose every child process exits 3. -/
def spawn3 : String → List String → SpawnResult := fun _ _ => ⟨some 3, false⟩

/-- A spawn oracle whose every child process exits 5. -/
def spawn5 : String → List String → SpawnResult := fun _ _ => ⟨some 5, false⟩

/-- A baseline environment: home `/home/u`, repository checkout `/repo`,
Linux, no `CODEX_AUTH_JSON`, no injected I/O failures, children exit 0. -/
def baseEnv : Env :=
  { osHomedir := some "/home/u"
    envHOME := none
    envUSERPROFILE := none
    codexAuthJson := none
    cwd := "/repo"
    platform := "linux"
    execPath := some "/usr/bin/node"
    whichResult := ⟨some 0, false⟩
    spawn := spawnOk
    failPaths := [] }

/-- An empty filesystem. -/
def emptyFS : FS := ⟨[], []⟩

/-- A filesystem holding the repository configuration file and the local
`codex.js` script entrypoint; the home area is empty. -/
def okFS : FS :=
  ⟨[⟨"/repo/.codex/config.toml", "cfg", 0o644⟩,
    ⟨"/repo/node_modules/@openai/codex/bin/codex.js", "js", 0o755⟩], []⟩

/-- `okFS` after the configuration step has installed
`/home/u/.codex/config.toml`. -/
def okFSAfter : FS :=
  ⟨[⟨"/repo/.codex/config.toml", "cfg", 0o644⟩,
    ⟨"/repo/node_modules/@openai/codex/bin/codex.js", "js", 0o755⟩,
    ⟨"/home/u/.codex/config.toml", "cfg", 0o600⟩],
   ["/home/u/.codex"]⟩

/-- The entrypoint resolved on `okFS`: the runtime executable running the
local `codex.js`. -/
def entryJs : Entry :=
  ⟨"/usr/bin/node", ["/repo/node_modules/@openai/codex/bin/codex.js"]⟩

/-- `baseEnv`, but with no resolvable home directory. -/
def noHomeEnv : Env := { baseEnv with osHomedir := none }

/-- The filesystem produced by the credential step from `emptyFS` when the
secret `SECRET` is provided: only the credential file and its directory. -/
def authOnlyFS : FS :=
  ⟨[⟨"/home/u/.codex/auth.json", "SECRET", 0o600⟩], ["/home/u/.codex"]⟩

/-- A filesystem holding only the repository configuration file: no local
`codex.js` and no `node_modules/.bin` binary. -/
def cfgOnlyFS : FS :=
  ⟨[⟨"/repo/.codex/config.toml", "cfg", 0o644⟩], []⟩

/-- `cfgOnlyFS` after the configuration step has installed
`/home/u/.codex/config.toml`. -/
def cfgOnlyFSAfter : FS :=
  ⟨[⟨"/repo/.codex/config.toml", "cfg", 0o644⟩,
    ⟨"/home/u/.codex/config.toml", "cfg", 0o600⟩],
   ["/home/u/.codex"]⟩

/-- `okFS` with a pre-existing credential file holding `OLD`. -/
def authFS : FS :=
  ⟨[⟨"/home/u/.codex/auth.json", "OLD", 0o600⟩,
    ⟨"/repo/.codex/config.toml", "cfg", 0o644⟩,
    ⟨"/repo/node_modules/@openai/codex/bin/codex.js", "js", 0o755⟩], []⟩

/-! Helper lemmas about the filesystem model. -/

theorem setFile_find?_self (l : List FileEntry) (p c : String) (m : Nat) :
    ∃ mo, (setFile l p c m).find? (fun f => f.path = p) = some ⟨p, c, mo⟩ := by
  induction l with
  | nil => exact ⟨m, by simp [setFile, List.find?_cons]⟩
  | cons a t ih =>
    by_cases hap : a.path = p
    · exact ⟨a.mode, by simp [setFile, hap, List.find?_cons]⟩
    · obtain ⟨mo, hmo⟩ := ih
      exact ⟨mo, by simp [setFile, hap, List.find?_cons, hmo]⟩

theorem setFile_find?_ne (l : List FileEntry) (p q c : String) (m : Nat) (h : q ≠ p) :
    (setFile l p c m).find? (fun f => f.path = q) = l.find? (fun f => f.path = q) := by
  have hpq : ¬(p = q) := fun hh => h hh.symm
  induction l with
  | nil => simp [setFile, List.find?_cons, hpq]
  | cons a t ih =>
    by_cases hap : a.path = p
    · have haq : ¬(a.path = q) := fun hq => h (hq.symm.trans hap)
      simp [setFile, hap, List.find?_cons, hpq, haq]
    · by_cases haq : a.path = q <;> simp [setFile, hap, haq, hpq, h, List.find?_cons, ih]

theorem find?_map_pathkeep (l : List FileEntry) (g : FileEntry → FileEntry)
    (hpath : ∀ f, (g f).path = f.path) (q : String) :
    (l.map g).find? (fun f => f.path = q) = (l.find? (fun f => f.path = q)).map g := by
  induction l with
  | nil => rfl
  | cons a t ih =>
    simp only [List.map_cons, List.find?_cons, hpath a]
    by_cases haq : a.path = q
    · rw [decide_eq_true haq]
      rfl
    · rw [decide_eq_false haq]
      exact ih

theorem FS.readFile_writeFile_self (fs : FS) (p c : String) (m : Nat) :
    (fs.writeFile p c m).readFile p = some c := by
  obtain ⟨mo, hmo⟩ := setFile_find?_self fs.files p c m
  unfold FS.writeFile FS.readFile
  rw [hmo]
  rfl

theorem FS.readFile_writeFile_ne (fs : FS) (p q c : String) (m : Nat) (h : q ≠ p) :
    (fs.writeFile p c m).readFile q = fs.readFile q := by
  unfold FS.writeFile FS.readFile
  rw [setFile_find?_ne fs.files p q c m h]

theorem FS.readFile_mkdir (fs : FS) (p q : String) :
    (fs.mkdir p).readFile q = fs.readFile q := by
  unfold FS.mkdir FS.readFile
  split <;> rfl

theorem chmod_entry_path (p : String) (m : Nat) (f : FileEntry) :
    ((fun f : FileEntry => if f.path = p then FileEntry.mk f.path f.content m else f) f).path
      = f.path := by
  by_cases h : f.path = p <;> simp [h]

theorem FS.readFile_chmod (fs : FS) (p q : String) (m : Nat) :
    (fs.chmod p m).readFile q = fs.readFile q := by
  unfold FS.chmod FS.readFile
  rw [find?_map_pathkeep fs.files _ (chmod_entry_path p m) q]
  cases hf : fs.files.find? (fun f => f.path = q) with
  | none => rfl
  | some a =>
    by_cases hap : a.path = p <;> simp [hap]

theorem FS.fileMode_chmod_writeFile (fs : FS) (p c : String) (m m2 : Nat) :
    ((fs.writeFile p c m).chmod p m2).fileMode p = some m2 := by
  obtain ⟨mo, hmo⟩ := setFile_find?_self fs.files p c m
  unfold FS.writeFile FS.chmod FS.fileMode
  rw [find?_map_pathkeep _ _ (chmod_entry_path p m2) p]
  simp [hmo]

theorem FS.dirs_writeFile (fs : FS) (p c : String) (m : Nat) :
    (fs.writeFile p c m).dirs = fs.dirs := rfl

theorem FS.dirs_chmod (fs : FS) (p : String) (m : Nat) :
    (fs.chmod p m).dirs = fs.dirs := rfl

theorem FS.dirs_mkdir_contains (fs : FS) (p : String) :
    (fs.mkdir p).dirs.contains p = true := by
  unfold FS.mkdir
  split <;> simp_all
theorem pathJoin_ne_of_length_ne (a : String) (b c : String) (h : b.length ≠ c.length) :
    pathJoin a b ≠ pathJoin a c := by
  intro heq
  apply h
  have hl := congrArg String.length heq
  simp only [pathJoin, String.length_append] at hl
  omega

theorem authPath_ne_destConfigPath (home : String) :
    authPathOf home ≠ destConfigPathOf home := by
  unfold authPathOf destConfigPathOf
  apply pathJoin_ne_of_length_ne
  decide

/-! Step-level lemmas about the routine's phases. -/

theorem ensureAuth_exit_one (e : Env) (fs fs' : FS) (c : Int)
    (h : ensureAuthFromEnvIfMissing e fs = StepOut.exit c fs') : c = 1 := by
  simp only [ensureAuthFromEnvIfMissing] at h
  repeat' split at h
  all_goals simp_all

theorem ensureConfig_exit_code (e : Env) (fs fs' : FS) (c : Int)
    (h : ensureConfigTomlFromRepo e fs = StepOut.exit c fs') : c = 2 ∨ c = 1 := by
  simp only [ensureConfigTomlFromRepo] at h
  repeat' split at h
  all_goals simp_all

theorem verify_exit_code (e : Env) (entry : Entry) (fs fs' : FS) (c : Int)
    (h : verifyLocalCodex e entry fs = StepOut.exit c fs') :
    fs' = fs ∧
      (c = 1 ∨
        ((e.spawn entry.command (entry.args ++ ["--version"])).status = some c ∧ c ≠ 0)) := by
  simp only [verifyLocalCodex] at h
  split at h
  · simp at h
  · next hok =>
    split at h
    · next hst => simp_all
    · next s hst =>
      have hs0 : s ≠ 0 := by
        intro h0
        apply hok
        simp [SpawnResult.ok, hst, h0]
      injection h with hc hfs
      exact ⟨hfs.symm, Or.inr ⟨hc ▸ hst, hc ▸ hs0⟩⟩

theorem verify_next_fs (e : Env) (entry : Entry) (fs fs' : FS)
    (h : verifyLocalCodex e entry fs = StepOut.next fs') : fs' = fs := by
  simp only [verifyLocalCodex] at h
  split at h
  · injection h with h1
    exact h1.symm
  · split at h <;> simp_all

theorem ensureConfig_next_content (e : Env) (fs fs' : FS)
    (h : ensureConfigTomlFromRepo e fs = StepOut.next fs') :
    ∃ home, resolveHome e = some home ∧
      fs'.readFile (destConfigPathOf home) = fs.readFile (repoConfigPathOf e) := by
  simp only [ensureConfigTomlFromRepo] at h
  split at h
  · simp at h
  · next hex =>
    split at h
    · simp at h
    · next home hh =>
      split at h
      · simp at h
      · next hfd =>
        split at h
        · simp at h
        · next content hread =>
          split at h
          · simp at h
          · next hfw =>
            injection h with hfs
            refine ⟨home, hh, ?_⟩
            rw [← hfs, FS.readFile_chmod, FS.readFile_writeFile_self]
            split at hread
            · simp at hread
            · rw [FS.readFile_mkdir] at hread
              exact hread.symm

theorem ensureConfig_exit_preserves (e : Env) (fs fs' : FS) (c : Int) (q : String)
    (h : ensureConfigTomlFromRepo e fs = StepOut.exit c fs') :
    fs'.readFile q = fs.readFile q := by
  simp only [ensureConfigTomlFromRepo] at h
  repeat' split at h
  all_goals first
    | (injection h with hc hfs; rw [← hfs, FS.readFile_mkdir])
    | (injection h with hc hfs; rw [← hfs])
    | injection h

theorem ensureConfig_next_preserves (e : Env) (fs fs' : FS) (q : String)
    (h : ensureConfigTomlFromRepo e fs = StepOut.next fs')
    (hq : ∀ home, resolveHome e = some home → q ≠ destConfigPathOf home) :
    fs'.readFile q = fs.readFile q := by
  simp only [ensureConfigTomlFromRepo] at h
  split at h
  · simp at h
  · next hex =>
    split at h
    · simp at h
    · next home hh =>
      split at h
      · simp at h
      · next hfd =>
        split at h
        · simp at h
        · next content hread =>
          split at h
          · simp at h
          · next hfw =>
            injection h with hfs
            rw [← hfs, FS.readFile_chmod,
              FS.readFile_writeFile_ne _ _ _ _ _ (hq home hh), FS.readFile_mkdir]

/-! Claim theorems. -/

/-- C1, counterexample: with the repository configuration file absent, the
credential variable set and the credential destination absent, the process
does exit with status 2, but it is not true that no filesystem writes occur
before termination: the credential file has been created by the earlier
credential step. -/
theorem c1_counterexample :
    (mainRun { baseEnv with codexAuthJson := some "SECRET" } emptyFS).1 = Outcome.exited 2 ∧
    (mainRun { baseEnv with codexAuthJson := some "SECRET" } emptyFS).2.existsSync
      (authPathOf "/home/u") = true ∧
    (mainRun { baseEnv with codexAuthJson := some "SECRET" } emptyFS).2 ≠ emptyFS := by
  decide

/-- C1, amended: if the credential step finishes without a fatal error and the
repository configuration file is absent in the filesystem it leaves behind,
the process terminates with exit status 2 and the configuration step performs
no write: the final filesystem is exactly the credential step's output (which
may already contain a newly created credential file). -/
theorem c1_config_absent_exits_two (e : Env) (fs fs1 : FS)
    (h1 : ensureAuthFromEnvIfMissing e fs = StepOut.next fs1)
    (h2 : fs1.existsSync (repoConfigPathOf e) = false) :
    mainRun e fs = (Outcome.exited 2, fs1) := by
  simp only [mainRun]
  rw [h1]
  simp [ensureConfigTomlFromRepo, h2]

/-- Witness for `c1_config_absent_exits_two`. -/
theorem c1_config_absent_exits_two_witness :
    mainRun { baseEnv with codexAuthJson := some "SECRET" } emptyFS =
      (Outcome.exited 2, authOnlyFS) :=
  c1_config_absent_exits_two _ emptyFS authOnlyFS (by decide) (by decide)

/-- C3: when the credential destination file exists, the credential step is a
no-op (it returns the filesystem unchanged, whatever the environment variable
holds), and the whole run leaves the credential file's content byte-for-byte
unchanged. -/
theorem c3_auth_preserved (e : Env) (fs : FS) (home : String)
    (hh : resolveHome e = some home)
    (hex : fs.existsSync (authPathOf home) = true) :
    ensureAuthFromEnvIfMissing e fs = StepOut.next fs ∧
    ((mainRun e fs).2).readFile (authPathOf home) = fs.readFile (authPathOf home) := by
  have hauth : ensureAuthFromEnvIfMissing e fs = StepOut.next fs := by
    simp [ensureAuthFromEnvIfMissing, hh, hex]
  refine ⟨hauth, ?_⟩
  have hq : ∀ h2, resolveHome e = some h2 → authPathOf home ≠ destConfigPathOf h2 := by
    intro h2 hh2
    rw [hh] at hh2
    injection hh2 with h2eq
    rw [← h2eq]
    exact authPath_ne_destConfigPath home
  cases hcfg : ensureConfigTomlFromRepo e fs with
  | exit c fs2 =>
    have hp := ensureConfig_exit_preserves e fs fs2 c (authPathOf home) hcfg
    simp only [mainRun, hauth, hcfg]
    exact hp
  | next fs2 =>
    have hp : fs2.readFile (authPathOf home) = fs.readFile (authPathOf home) :=
      ensureConfig_next_preserves e fs fs2 (authPathOf home) hcfg hq
    cases hfind : findLocalCodexEntrypoint e fs2 with
    | none =>
      simp only [mainRun, hauth, hcfg, hfind]
      exact hp
    | some entry =>
      cases hv : verifyLocalCodex e entry fs2 with
      | exit c fs3 =>
        have hfs3 := (verify_exit_code e entry fs2 fs3 c hv).1
        simp only [mainRun, hauth, hcfg, hfind, hv]
        rw [hfs3]
        exact hp
      | next fs3 =>
        have hfs3 := verify_next_fs e entry fs2 fs3 hv
        simp only [mainRun, hauth, hcfg, hfind, hv]
        rw [hfs3]
        exact hp

/-- Witness for `c3_auth_preserved`. -/
theorem c3_auth_preserved_witness :
    ensureAuthFromEnvIfMissing { baseEnv with codexAuthJson := some "NEW" } authFS =
      StepOut.next authFS ∧
    ((mainRun { baseEnv with codexAuthJson := some "NEW" } authFS).2).readFile
      (authPathOf "/home/u") = authFS.readFile (authPathOf "/home/u") :=
  c3_auth_preserved { baseEnv with codexAuthJson := some "NEW" } authFS "/home/u"
    (by decide) (by decide)

/-- C9: when no home directory resolves, the two provisioning steps behave
asymmetrically: the credential step continues without writing, while the
configuration step (with the repository file present) terminates the run with
the generic status 1, not the missing-configuration status 2. -/
theorem c9_no_home_asymmetry (e : Env) (fs : FS)
    (hh : resolveHome e = none) :
    ensureAuthFromEnvIfMissing e fs = StepOut.next fs ∧
    (fs.existsSync (repoConfigPathOf e) = true →
      ensureConfigTomlFromRepo e fs = StepOut.exit 1 fs ∧
      mainRun e fs = (Outcome.exited 1, fs)) := by
  have hauth : ensureAuthFromEnvIfMissing e fs = StepOut.next fs := by
    simp [ensureAuthFromEnvIfMissing, hh]
  refine ⟨hauth, fun hex => ?_⟩
  have hcfg : ensureConfigTomlFromRepo e fs = StepOut.exit 1 fs := by
    simp [ensureConfigTomlFromRepo, hh, hex]
  refine ⟨hcfg, ?_⟩
  simp only [mainRun, hauth, hcfg]

/-- Witness for `c9_no_home_asymmetry`. -/
theorem c9_no_home_asymmetry_witness :
    ensureAuthFromEnvIfMissing noHomeEnv okFS = StepOut.next okFS ∧
    mainRun noHomeEnv okFS = (Outcome.exited 1, okFS) :=
  have h := c9_no_home_asymmetry noHomeEnv okFS (by decide)
  ⟨h.1, (h.2 (by decide)).2⟩

/-- C10: a credential variable whose value trims to the empty string is
treated like an unset variable: the credential step returns with no write and
behaves identically to the run with the variable removed. -/
theorem c10_whitespace_secret (e : Env) (fs : FS) (home secret : String)
    (hh : resolveHome e = some home)
    (habs : fs.existsSync (authPathOf home) = false)
    (hs : e.codexAuthJson = some secret)
    (ht : jsTrim secret = "") :
    ensureAuthFromEnvIfMissing e fs = StepOut.next fs ∧
    ensureAuthFromEnvIfMissing { e with codexAuthJson := none } fs = StepOut.next fs := by
  have hempty : "".isEmpty = true := rfl
  constructor
  · simp [ensureAuthFromEnvIfMissing, hh, habs, hs, ht, hempty]
  · have hh2 : resolveHome { e with codexAuthJson := none } = some home := hh
    simp [ensureAuthFromEnvIfMissing, hh2, habs]

/-- Witness for `c10_whitespace_secret`. -/
theorem c10_whitespace_secret_witness :
    ensureAuthFromEnvIfMissing { baseEnv with codexAuthJson := some " " } emptyFS =
      StepOut.next emptyFS :=
  (c10_whitespace_secret { baseEnv with codexAuthJson := some " " } emptyFS "/home/u" " "
    (by decide) (by decide) rfl (by decide)).1

/-- C2, counterexample: the variable holds the non-empty string of one space
and the credential destination is absent, yet the run completes without
creating the destination file, contradicting the claim for non-empty values. -/
theorem c2_counterexample :
    (" " : String) ≠ "" ∧
    okFS.existsSync (authPathOf "/home/u") = false ∧
    (mainRun { baseEnv with codexAuthJson := some " " } okFS).1 = Outcome.completed ∧
    (mainRun { baseEnv with codexAuthJson := some " " } okFS).2.existsSync
      (authPathOf "/home/u") = false := by
  decide

/-- C2, amended: when the credential destination is absent and the variable
holds a value that is non-empty after trimming whitespace, and no I/O failure
is injected, the credential step creates the destination file with exactly the
variable's value, mode `0600`, and the containing directory present. -/
theorem c2_auth_created (e : Env) (fs : FS) (home secret : String)
    (hh : resolveHome e = some home)
    (hs : e.codexAuthJson = some secret)
    (ht : (jsTrim secret).isEmpty = false)
    (habs : fs.existsSync (authPathOf home) = false)
    (hf1 : e.failPaths.contains (codexDirOf home) = false)
    (hf2 : e.failPaths.contains (authPathOf home) = false) :
    ∃ fs', ensureAuthFromEnvIfMissing e fs = StepOut.next fs' ∧
      fs'.readFile (authPathOf home) = some secret ∧
      fs'.fileMode (authPathOf home) = some 0o600 ∧
      fs'.dirs.contains (codexDirOf home) = true := by
  have hf1m : ¬(codexDirOf home ∈ e.failPaths) := by simpa using hf1
  have hf2m : ¬(authPathOf home ∈ e.failPaths) := by simpa using hf2
  refine ⟨((fs.mkdir (codexDirOf home)).writeFile (authPathOf home) secret 0o600).chmod
    (authPathOf home) 0o600, ?_, ?_, ?_, ?_⟩
  · simp [ensureAuthFromEnvIfMissing, hh, habs, hs, ht, hf1m, hf2m]
  · rw [FS.readFile_chmod, FS.readFile_writeFile_self]
  · exact FS.fileMode_chmod_writeFile _ _ _ _ _
  · rw [FS.dirs_chmod, FS.dirs_writeFile]
    exact FS.dirs_mkdir_contains fs (codexDirOf home)

/-- Witness for `c2_auth_created`. -/
theorem c2_auth_created_witness :
    ∃ fs', ensureAuthFromEnvIfMissing { baseEnv with codexAuthJson := some "SECRET" } emptyFS
        = StepOut.next fs' ∧
      fs'.readFile (authPathOf "/home/u") = some "SECRET" ∧
      fs'.fileMode (authPathOf "/home/u") = some 0o600 ∧
      fs'.dirs.contains (codexDirOf "/home/u") = true :=
  c2_auth_created { baseEnv with codexAuthJson := some "SECRET" } emptyFS "/home/u" "SECRET"
    (by decide) rfl (by decide) (by decide) (by decide) (by decide)

/-- C4: once the run reaches verification, a verification subprocess exiting
with a non-zero status `s` makes the process exit with that same status `s`,
and an unavailable status (signal or spawn failure) makes it exit with the
generic status 1. -/
theorem c4_verify_propagates (e : Env) (fs fs1 fs2 : FS) (entry : Entry)
    (h1 : ensureAuthFromEnvIfMissing e fs = StepOut.next fs1)
    (h2 : ensureConfigTomlFromRepo e fs1 = StepOut.next fs2)
    (h3 : findLocalCodexEntrypoint e fs2 = some entry) :
    ((e.spawn entry.command (entry.args ++ ["--version"])).status = none →
      mainRun e fs = (Outcome.exited 1, fs2)) ∧
    (∀ s : Int, (e.spawn entry.command (entry.args ++ ["--version"])).status = some s →
      s ≠ 0 → mainRun e fs = (Outcome.exited s, fs2)) := by
  constructor
  · intro hnone
    have hv : verifyLocalCodex e entry fs2 = StepOut.exit 1 fs2 := by
      simp [verifyLocalCodex, SpawnResult.ok, hnone]
    simp only [mainRun, h1, h2, h3, hv]
  · intro s hs hs0
    have hv : verifyLocalCodex e entry fs2 = StepOut.exit s fs2 := by
      simp [verifyLocalCodex, SpawnResult.ok, hs, hs0]
    simp only [mainRun, h1, h2, h3, hv]

/-- Witness for `c4_verify_propagates`: a subprocess status of 3 yields
process exit 3. -/
theorem c4_verify_propagates_witness :
    mainRun { baseEnv with spawn := spawn3 } okFS = (Outcome.exited 3, okFSAfter) :=
  (c4_verify_propagates { baseEnv with spawn := spawn3 } okFS okFS okFSAfter entryJs
    (by decide) (by decide) (by decide)).2 3 rfl (by decide)

/-- C5, counterexample: a run whose verification subprocess exits 5 makes the
process terminate with exit status 5, which is neither 1 nor 2; so the set of
fatal exit codes is not contained in the claimed set. -/
theorem c5_counterexample :
    (mainRun { baseEnv with spawn := spawn5 } okFS).1 = Outcome.exited 5 ∧
    ¬((5 : Int) = 1 ∨ (5 : Int) = 2) := by
  decide

/-- C5, amended: every fatal exit code is 1 (generic failure), 2 (required
configuration missing), or the non-zero exit status reported by the
verification subprocess for the resolved entrypoint. -/
theorem c5_fatal_exit_codes (e : Env) (fs fs' : FS) (c : Int)
    (h : mainRun e fs = (Outcome.exited c, fs')) :
    c = 1 ∨ c = 2 ∨
      (c ≠ 0 ∧ ∃ entry fs2, findLocalCodexEntrypoint e fs2 = some entry ∧
        (e.spawn entry.command (entry.args ++ ["--version"])).status = some c) := by
  cases hauth : ensureAuthFromEnvIfMissing e fs with
  | exit ca fsa =>
    simp only [mainRun, hauth] at h
    injection h with ho hfs
    injection ho with hco
    left
    rw [← hco]
    exact ensureAuth_exit_one e fs fsa ca hauth
  | next fs1 =>
    cases hcfg : ensureConfigTomlFromRepo e fs1 with
    | exit cc fsc =>
      simp only [mainRun, hauth, hcfg] at h
      injection h with ho
      injection ho with hco
      rcases ensureConfig_exit_code e fs1 fsc cc hcfg with h2 | h1
      · right; left; rw [← hco, h2]
      · left; rw [← hco, h1]
    | next fs2 =>
      cases hfind : findLocalCodexEntrypoint e fs2 with
      | none =>
        simp only [mainRun, hauth, hcfg, hfind] at h
        injection h with ho
        injection ho with hco
        left
        exact hco.symm
      | some entry =>
        cases hv : verifyLocalCodex e entry fs2 with
        | exit cv fsv =>
          simp only [mainRun, hauth, hcfg, hfind, hv] at h
          injection h with ho
          injection ho with hco
          rcases (verify_exit_code e entry fs2 fsv cv hv).2 with h1 | ⟨hst, hnz⟩
          · left; rw [← hco, h1]
          · right; right
            refine ⟨by rw [← hco]; exact hnz, entry, fs2, hfind, by rw [← hco]; exact hst⟩
        | next fs3 =>
          simp only [mainRun, hauth, hcfg, hfind, hv] at h
          injection h with ho
          injection ho

/-- Witness for `c5_fatal_exit_codes`: the exit-2 run over an empty
filesystem. -/
theorem c5_fatal_exit_codes_witness :
    (2 : Int) = 1 ∨ (2 : Int) = 2 ∨
      ((2 : Int) ≠ 0 ∧ ∃ entry fs2, findLocalCodexEntrypoint baseEnv fs2 = some entry ∧
        (baseEnv.spawn entry.command (entry.args ++ ["--version"])).status = some 2) :=
  c5_fatal_exit_codes baseEnv emptyFS emptyFS 2 (by decide)

/-- C6: entrypoint resolution prefers the nested `codex.js` script run through
the current runtime; failing that it takes the first existing
platform-appropriate binary under `node_modules/.bin`; when nothing exists it
resolves to nothing and the run exits 1 with an outcome independent of the
spawn oracle (no verification subprocess can influence it). -/
theorem c6_entrypoint_resolution (e : Env) (fs : FS) :
    (fs.existsSync (codexJsPathOf e) = true →
      findLocalCodexEntrypoint e fs = some ⟨nodeBinOf e, [codexJsPathOf e]⟩) ∧
    (fs.existsSync (codexJsPathOf e) = false → e.platform ≠ "win32" →
      fs.existsSync (pathJoin (binDirOf e) "codex") = true →
      findLocalCodexEntrypoint e fs = some ⟨pathJoin (binDirOf e) "codex", []⟩) ∧
    (fs.existsSync (codexJsPathOf e) = false → e.platform = "win32" →
      fs.existsSync (pathJoin (binDirOf e) "codex.cmd") = true →
      findLocalCodexEntrypoint e fs = some ⟨pathJoin (binDirOf e) "codex.cmd", []⟩) ∧
    (fs.existsSync (codexJsPathOf e) = false →
      (∀ n ∈ binCandidates e.platform, fs.existsSync (pathJoin (binDirOf e) n) = false) →
      findLocalCodexEntrypoint e fs = none) ∧
    (∀ fs0 fs1, ensureAuthFromEnvIfMissing e fs0 = StepOut.next fs1 →
      ensureConfigTomlFromRepo e fs1 = StepOut.next fs →
      findLocalCodexEntrypoint e fs = none →
      ∀ sp, mainRun { e with spawn := sp } fs0 = (Outcome.exited 1, fs)) := by
  refine ⟨?_, ?_, ?_, ?_, ?_⟩
  · intro hjs
    simp [findLocalCodexEntrypoint, hjs]
  · intro hjs hplat hbin
    simp [findLocalCodexEntrypoint, hjs, binCandidates, hplat, hbin]
  · intro hjs hplat hbin
    simp [findLocalCodexEntrypoint, hjs, binCandidates, hplat, hbin]
  · intro hjs hnone
    have hfind : (binCandidates e.platform).find?
        (fun name => fs.existsSync (pathJoin (binDirOf e) name)) = none := by
      rw [List.find?_eq_none]
      intro n hn
      simp [hnone n hn]
    simp [findLocalCodexEntrypoint, hjs, hfind]
  · intro fs0 fs1 h1 h2 hn sp
    have h1m : ensureAuthFromEnvIfMissing { e with spawn := sp } fs0 = StepOut.next fs1 := h1
    have h2m : ensureConfigTomlFromRepo { e with spawn := sp } fs1 = StepOut.next fs := h2
    have hnm : findLocalCodexEntrypoint { e with spawn := sp } fs = none := hn
    simp only [mainRun, h1m, h2m, hnm]

/-- Witness for `c6_entrypoint_resolution`: the script entrypoint is found on
`okFS`; on a filesystem with neither candidate, resolution yields nothing and
the run exits 1 whatever the spawn oracle would answer. -/
theorem c6_entrypoint_resolution_witness :
    findLocalCodexEntrypoint baseEnv okFS = some entryJs ∧
    findLocalCodexEntrypoint baseEnv cfgOnlyFSAfter = none ∧
    mainRun { baseEnv with spawn := spawn5 } cfgOnlyFS = (Outcome.exited 1, cfgOnlyFSAfter) :=
  ⟨(c6_entrypoint_resolution baseEnv okFS).1 (by decide),
   (c6_entrypoint_resolution baseEnv cfgOnlyFSAfter).2.2.2.1 (by decide) (by decide),
   (c6_entrypoint_resolution baseEnv cfgOnlyFSAfter).2.2.2.2 cfgOnlyFS cfgOnlyFS
     (by decide) (by decide) (by decide) spawn5⟩

/-- C7: a successful configuration step always leaves the destination holding
exactly the repository file's bytes, so two successful runs over an unchanged
repository file produce byte-identical destination content. -/
theorem c7_config_idempotent (e : Env) (fsA fsB fsA2 fsB2 : FS)
    (hA : ensureConfigTomlFromRepo e fsA = StepOut.next fsA2)
    (hB : ensureConfigTomlFromRepo e fsB = StepOut.next fsB2)
    (hsame : fsA.readFile (repoConfigPathOf e) = fsB.readFile (repoConfigPathOf e)) :
    ∃ home, resolveHome e = some home ∧
      fsA2.readFile (destConfigPathOf home) = fsA.readFile (repoConfigPathOf e) ∧
      fsB2.readFile (destConfigPathOf home) = fsB.readFile (repoConfigPathOf e) ∧
      fsA2.readFile (destConfigPathOf home) = fsB2.readFile (destConfigPathOf home) := by
  obtain ⟨home, hh, hcA⟩ := ensureConfig_next_content e fsA fsA2 hA
  obtain ⟨home2, hh2, hcB⟩ := ensureConfig_next_content e fsB fsB2 hB
  rw [hh] at hh2
  injection hh2 with heq
  subst heq
  exact ⟨home, hh, hcA, hcB, by rw [hcA, hcB, hsame]⟩

/-- Witness for `c7_config_idempotent`: a first run installs the destination,
a second run over the installed state reproduces the same content. -/
theorem c7_config_idempotent_witness :
    ∃ home, resolveHome baseEnv = some home ∧
      okFSAfter.readFile (destConfigPathOf home) = okFS.readFile (repoConfigPathOf baseEnv) ∧
      okFSAfter.readFile (destConfigPathOf home) =
        okFSAfter.readFile (repoConfigPathOf baseEnv) ∧
      okFSAfter.readFile (destConfigPathOf home) =
        okFSAfter.readFile (destConfigPathOf home) :=
  c7_config_idempotent baseEnv okFS okFSAfter okFSAfter okFSAfter
    (by decide) (by decide) (by decide)

/-- C8: the environment probe is non-fatal and outcome-irrelevant: the run's
outcome and final filesystem do not depend on the `which`/`where` probe's
result, whether it failed to spawn, was killed, or exited non-zero. -/
theorem c8_probe_nonfatal (e : Env) (fs : FS) (w : SpawnResult) :
    mainRun { e with whichResult := w } fs = mainRun e fs := rfl
